import Mathlib

/-!
Shallow embedding of `update-pactometro.mjs` (pactometro-backend): a batch
job that reads semicolon-delimited election snapshots, decodes the region
(`CM`) record into candidacy results and reconciles them with persisted
rows.  Pure parsing/merging logic is translated directly; ambient effects
(HTTP, clock, store) become explicit parameters.  JavaScript string
primitives (`trim`, single-character `split`, `Number`) are modelled as
structural functions on the underlying character lists.
-/

/-- Result of JavaScript numeric coercion: either a rational value or NaN. -/
inductive JSNum where
  | nan : JSNum
  | num : ℚ → JSNum
deriving DecidableEq, Repr

/-- JavaScript `String.prototype.trim` on the character list: remove
leading and trailing whitespace (the feed is ASCII, where JavaScript's
and Lean's whitespace classes agree). -/
def trimList (l : List Char) : List Char :=
  ((l.dropWhile Char.isWhitespace).reverse.dropWhile Char.isWhitespace).reverse

/-- JavaScript `s.trim()`. -/
def jsTrim (s : String) : String := String.mk (trimList s.data)

/-- Accumulator pass of JavaScript `split` with a one-character separator:
every separator occurrence ends a field, and the trailing field is always
emitted (so the empty string splits to `[""]`). -/
def splitCharAux (sep : Char) : List Char → List Char → List (List Char)
  | [], acc => [acc.reverse]
  | c :: rest, acc =>
      if c = sep then acc.reverse :: splitCharAux sep rest []
      else splitCharAux sep rest (c :: acc)

/-- JavaScript `s.split(sep)` for a one-character separator (the script
only splits on `';'` and `'\n'`). -/
def jsSplit (sep : Char) (s : String) : List String :=
  (splitCharAux sep s.data []).map String.mk

/-- Numeric value of a list of decimal digit characters. -/
def digitsVal (l : List Char) : ℕ :=
  l.foldl (fun a c => 10 * a + (c.toNat - 48)) 0

/-- Parse an unsigned decimal literal (digits, optional point, digits). -/
def parseUnsignedDec (l : List Char) : Option ℚ :=
  let intPart := l.takeWhile Char.isDigit
  let rest := l.dropWhile Char.isDigit
  match rest with
  | [] => if intPart.isEmpty then none else some (digitsVal intPart)
  | '.' :: frac =>
      if frac.all Char.isDigit && (!intPart.isEmpty || !frac.isEmpty) then
        some ((digitsVal intPart : ℚ) + (digitsVal frac : ℚ) / (10 ^ frac.length : ℚ))
      else none
  | _ => none

/-- Parse a signed decimal literal. -/
def parseSignedDec : List Char → Option ℚ
  | [] => none
  | '+' :: rest => parseUnsignedDec rest
  | '-' :: rest => (parseUnsignedDec rest).map Neg.neg
  | l => parseUnsignedDec l

/-- Model of JavaScript `Number(s)` on strings: surrounding whitespace is
ignored, the empty or blank string coerces to `0`, a signed decimal
literal coerces to its value, anything else is NaN.  (Exponent,
hexadecimal and `Infinity` forms, which the feed never uses, are mapped
to NaN.) -/
def jsNumber (s : String) : JSNum :=
  let t := trimList s.data
  if t.isEmpty then .num 0
  else
    match parseSignedDec t with
    | some q => .num q
    | none => .nan

/-- Division by 100 used for the implied-two-decimals percentage rule. -/
def JSNum.div100 : JSNum → JSNum
  | .nan => .nan
  | .num q => .num (q / 100)

/-- One maximal run of whitespace becomes a single underscore, as in the
JavaScript `replace(/\s+/g, "_")`; the boolean records whether the
previous character was whitespace. -/
def collapseWsAux : Bool → List Char → List Char
  | _, [] => []
  | prevWs, c :: rest =>
    if c.isWhitespace then
      if prevWs then collapseWsAux true rest
      else '_' :: collapseWsAux true rest
    else c :: collapseWsAux false rest

/-- Characters kept by the sanitizing `replace(/[^a-z0-9_]/g, "")`. -/
def keepChar (c : Char) : Bool :=
  ('a' ≤ c && c ≤ 'z') || ('0' ≤ c && c ≤ '9') || c = '_'

/-- Party identifier (`partyId`) derivation from the trimmed short name:
lower-case, collapse whitespace runs to `_`, strip everything outside
`[a-z0-9_]`.  Lower-casing is modelled on ASCII letters; any character
whose lower-case form is non-ASCII is stripped by the final filter either
way. -/
def partyIdOf (s : String) : String :=
  String.mk ((collapseWsAux false (s.data.map Char.toLower)).filter keepChar)

/-- Display-name override: the short name `PODEMOS-IU-AV` is always
rendered as `Unidas por Extremadura`. -/
def displayNameFor (siglas : String) : String :=
  if siglas = "PODEMOS-IU-AV" then "Unidas por Extremadura" else siglas

/-- One decoded candidacy (`candidaturas.push({...})` in the source). -/
structure Candidatura where
  party_id : String
  party_name : String
  seats_2025 : JSNum
  vote_pct_2025 : Option JSNum
  votos_totales : JSNum
  codigo_candidatura : String
deriving DecidableEq, Repr

/-- One 5-field candidacy group `[code, shortName, votesRaw, pctRaw, seatsRaw]`. -/
structure Grupo where
  codigoRaw : String
  siglasRaw : String
  votosRaw : String
  pctRaw : String
  escanosRaw : String
deriving DecidableEq, Repr

/-- Body of one iteration of the candidacy loop: trim the code, skip the
group when the code is blank or the `0000` sentinel or the trimmed short
name is empty, otherwise build the candidacy.  JavaScript string falsiness
(`raw ? e : d`) is exactly the emptiness test. -/
def decodeGrupo (g : Grupo) : Option Candidatura :=
  let codigo := jsTrim g.codigoRaw
  if codigo = "" || codigo = "0000" then none
  else
    let siglas := jsTrim g.siglasRaw
    if siglas = "" then none
    else some {
      party_id := partyIdOf siglas
      party_name := displayNameFor siglas
      seats_2025 := if g.escanosRaw = "" then .num 0 else jsNumber g.escanosRaw
      vote_pct_2025 := if g.pctRaw = "" then none else some (jsNumber g.pctRaw).div100
      votos_totales := if g.votosRaw = "" then .num 0 else jsNumber g.votosRaw
      codigo_candidatura := codigo }

/-- The fixed header width of a totals record. -/
def NUM_HEADER_FIELDS : ℕ := 22

/-- The candidacy loop `for (let i = 0; i + 4 < candidaturaFields.length; i += 5)`
over the field list `cf`, starting at index `i`. -/
def parseCandidaturasAux (cf : List String) (i : ℕ) : List Candidatura :=
  if h : i + 4 < cf.length then
    match decodeGrupo
        { codigoRaw := cf.get ⟨i, by omega⟩
          siglasRaw := cf.get ⟨i + 1, by omega⟩
          votosRaw := cf.get ⟨i + 2, by omega⟩
          pctRaw := cf.get ⟨i + 3, by omega⟩
          escanosRaw := cf.get ⟨i + 4, by omega⟩ } with
    | some c => c :: parseCandidaturasAux cf (i + 5)
    | none => parseCandidaturasAux cf (i + 5)
  else []
termination_by cf.length - i

/-- Split the record on `;`, drop the 22-field header, run the candidacy
loop (`parseCandidaturasFromLineaCM`). -/
def parseCandidaturasFromLineaCM (lineaCM : String) : List Candidatura :=
  parseCandidaturasAux ((jsSplit ';' lineaCM).drop NUM_HEADER_FIELDS) 0

/-- Consecutive complete 5-field groups of a field list; a trailing
partial group of fewer than 5 fields is dropped. -/
def chunks5 : List String → List Grupo
  | a :: b :: c :: d :: e :: rest => ⟨a, b, c, d, e⟩ :: chunks5 rest
  | _ => []

/-- Percentage of roll counted (`getPctEscrutadoFromLineaCM`): field
index 9, trimmed (JavaScript
falsiness sends an absent or empty field to `''`), `null` when blank or
NaN, else the implied-two-decimals value. -/
def getPctEscrutadoFromLineaCM (lineaCM : String) : Option ℚ :=
  let fields := jsSplit ';' lineaCM
  let raw := match fields.get? 9 with
    | some f => if f = "" then "" else jsTrim f
    | none => ""
  if raw = "" then none
  else
    match jsNumber raw with
    | .nan => none
    | .num q => some (q / 100)

/-- Lines of the totals body: `csv.trim().split('\n')`. -/
def totalesLines (csv : String) : List String := jsSplit '\n' (jsTrim csv)

/-- Test `parts[1] === 'CM'` after splitting a line on `;`. -/
def esLineaCM (line : String) : Bool := (jsSplit ';' line).get? 1 == some "CM"

/-- Region record locator (`getTotalesLineaCM`) on an already-fetched
totals body: the first line
whose field index 1 is `CM`; `none` models the thrown
`RecordNotFoundError`. -/
def getTotalesLineaCM (csv : String) : Option String :=
  (totalesLines csv).find? esLineaCM

/-- Snapshot-id resolver (`getCurrentNumEnv`) on an already-fetched
snapshot-index body: first
line, split on `;`; a single field means the field itself, otherwise the
second field; `none` models the thrown `MalformedFeedError` on an empty
result. -/
def getCurrentNumEnv (csv : String) : Option String :=
  let line := (jsSplit '\n' (jsTrim csv)).headD ""
  let parts := jsSplit ';' line
  let numEnv :=
    if parts.length = 1 then jsTrim (parts.headD "")
    else jsTrim ((parts.get? 1).getD "")
  if numEnv = "" then none else some numEnv

/-- A persisted `pactometro_results` row as read back
(`select('party_id, seats_2023, pct_escrutado')`, of which only
`party_id` and `seats_2023` are used). -/
structure PersistedRow where
  party_id : String
  seats_2023 : ℤ
deriving DecidableEq, Repr

/-- Lookup in a JavaScript `Map` built from a key/value list: the last
binding of a key wins. -/
def jsMapGet (entries : List (String × ℤ)) (k : String) : Option ℤ :=
  (entries.reverse.find? (fun e => e.1 == k)).map (fun e => e.2)

/-- Entries of `new Map(existentes.map(row => [row.party_id, row.seats_2023]))`. -/
def mapaExistentesOf (existentes : List PersistedRow) : List (String × ℤ) :=
  existentes.map (fun r => (r.party_id, r.seats_2023))

/-- One region upsert row, exactly the object literal built in
`upsertCandidaturasEnSupabase`. -/
structure RegionRow where
  party_id : String
  party_name : String
  seats_2025 : JSNum
  vote_pct_2025 : Option JSNum
  seats_2023 : ℤ
  updated_at : String
  pct_escrutado : Option ℚ
deriving DecidableEq, Repr

/-- The row built for one fresh candidacy: prior-period seats are looked
up (`has ? get : 0`), every other mutable column comes from the fresh
decode, the timestamp is the run's current time `now`. -/
def buildUpsertRow (mapa : List (String × ℤ)) (now : String) (pctEscrutado : Option ℚ)
    (c : Candidatura) : RegionRow :=
  { party_id := c.party_id
    party_name := c.party_name
    seats_2025 := c.seats_2025
    vote_pct_2025 := c.vote_pct_2025
    seats_2023 := (jsMapGet mapa c.party_id).getD 0
    updated_at := now
    pct_escrutado := pctEscrutado }

/-- The full list of rows passed to `upsert` for one run. -/
def upsertRowsFor (candidaturas : List Candidatura) (existentes : List PersistedRow)
    (now : String) (pctEscrutado : Option ℚ) : List RegionRow :=
  candidaturas.map (buildUpsertRow (mapaExistentesOf existentes) now pctEscrutado)

/-- Fatal error kinds of the modelled pipeline fragment. -/
inductive PipelineError where
  | recordNotFound : PipelineError
deriving DecidableEq, Repr

/-- The pure core of `main` after the totals body is fetched: locate the
`CM` line, decode the percentage counted and the candidacies, build the
region upsert rows.  A missing `CM` line is the only fatal error; a
non-numeric percentage-counted field merely yields `none`. -/
def processTotales (csv : String) (existentes : List PersistedRow) (now : String) :
    Except PipelineError (Option ℚ × List RegionRow) :=
  match getTotalesLineaCM csv with
  | none => .error .recordNotFound
  | some lineaCM =>
      let pctEscrutado := getPctEscrutadoFromLineaCM lineaCM
      let candidaturas := parseCandidaturasFromLineaCM lineaCM
      .ok (pctEscrutado, upsertRowsFor candidaturas existentes now pctEscrutado)

/-- Modelled from the spec: the province path (absent from the script in
`src/`) derives the province identifier from the display name by Unicode
NFD normalization plus combining-mark stripping; on the Latin letters the
feed can produce this is precisely the accent-removal map below. -/
def stripDiacritics (c : Char) : Char :=
  if c = 'á' then 'a' else if c = 'é' then 'e' else if c = 'í' then 'i'
  else if c = 'ó' then 'o' else if c = 'ú' then 'u' else if c = 'ü' then 'u'
  else if c = 'ñ' then 'n'
  else if c = 'Á' then 'A' else if c = 'É' then 'E' else if c = 'Í' then 'I'
  else if c = 'Ó' then 'O' else if c = 'Ú' then 'U' else if c = 'Ü' then 'U'
  else if c = 'Ñ' then 'N' else c

/-- Modelled from the spec: province identifier = diacritic stripping,
then lower-casing, then whitespace runs to a single underscore. -/
def normalizeProvinciaId (nombre : String) : String :=
  String.mk (collapseWsAux false ((nombre.data.map stripDiacritics).map Char.toLower))

/-- Modelled from the spec: test `parts[1] === 'PR'` marking a province record. -/
def esLineaPR (line : String) : Bool := (jsSplit ';' line).get? 1 == some "PR"

/-- Modelled from the spec: the province lines of a totals body, in feed
order. -/
def getLineasPR (csv : String) : List String := (totalesLines csv).filter esLineaPR

/-- Modelled from the spec: a decoded ProvinceRecord. -/
structure ProvinciaRecord where
  provincia_id : String
  provincia_nombre : String
  candidaturas : List Candidatura
deriving DecidableEq, Repr

/-- Modelled from the spec: decode one province record; the display name
is field index 5 and the candidacy decoder is the same one used for the
region record. -/
def parseProvinciaRecord (line : String) : ProvinciaRecord :=
  { provincia_id := normalizeProvinciaId (((jsSplit ';' line).get? 5).getD "")
    provincia_nombre := ((jsSplit ';' line).get? 5).getD ""
    candidaturas := parseCandidaturasFromLineaCM line }

/-- Modelled from the spec: all province records of a totals body. -/
def getProvinciaRecords (csv : String) : List ProvinciaRecord :=
  (getLineasPR csv).map parseProvinciaRecord

/-- Modelled from the spec: one province upsert row, keyed by the
composite (province identifier, candidacy identifier). -/
structure ProvinciaRow where
  provincia_id : String
  provincia_nombre : String
  party_id : String
  party_name : String
  seats : JSNum
  vote_pct : Option JSNum
  votos_totales : JSNum
  updated_at : String
deriving DecidableEq, Repr

/-- Modelled from the spec: one upsert row per (province record,
candidacy) pair; no prior-period carry-over at this granularity. -/
def provinciaUpsertRows (recs : List ProvinciaRecord) (now : String) : List ProvinciaRow :=
  recs.flatMap (fun r => r.candidaturas.map (fun c =>
    { provincia_id := r.provincia_id
      provincia_nombre := r.provincia_nombre
      party_id := c.party_id
      party_name := c.party_name
      seats := c.seats_2025
      vote_pct := c.vote_pct_2025
      votos_totales := c.votos_totales
      updated_at := now }))

theorem chunks5_eq_nil (l : List String) (h : l.length < 5) : chunks5 l = [] := by
  rcases l with _ | ⟨a, l⟩
  · rfl
  rcases l with _ | ⟨b, l⟩
  · rfl
  rcases l with _ | ⟨c, l⟩
  · rfl
  rcases l with _ | ⟨d, l⟩
  · rfl
  rcases l with _ | ⟨e, l⟩
  · rfl
  exact absurd h (by simp [List.length_cons])

theorem drop_five_decomp (cf : List String) (i : ℕ) (h : i + 4 < cf.length) :
    cf.drop i = cf.get ⟨i, by omega⟩ :: cf.get ⟨i + 1, by omega⟩ :: cf.get ⟨i + 2, by omega⟩ ::
      cf.get ⟨i + 3, by omega⟩ :: cf.get ⟨i + 4, by omega⟩ :: cf.drop (i + 5) := by
  have h0 : cf.drop i = cf.get ⟨i, by omega⟩ :: cf.drop (i + 1) :=
    List.drop_eq_getElem_cons (by omega)
  have h1 : cf.drop (i + 1) = cf.get ⟨i + 1, by omega⟩ :: cf.drop (i + 2) :=
    List.drop_eq_getElem_cons (by omega)
  have h2 : cf.drop (i + 2) = cf.get ⟨i + 2, by omega⟩ :: cf.drop (i + 3) :=
    List.drop_eq_getElem_cons (by omega)
  have h3 : cf.drop (i + 3) = cf.get ⟨i + 3, by omega⟩ :: cf.drop (i + 4) :=
    List.drop_eq_getElem_cons (by omega)
  have h4 : cf.drop (i + 4) = cf.get ⟨i + 4, by omega⟩ :: cf.drop (i + 5) :=
    List.drop_eq_getElem_cons (by omega)
  rw [h0, h1, h2, h3, h4]

theorem parseAux_eq_chunks (cf : List String) (i : ℕ) :
    parseCandidaturasAux cf i = (chunks5 (cf.drop i)).filterMap decodeGrupo := by
  have key : ∀ n i, cf.length ≤ i + n →
      parseCandidaturasAux cf i = (chunks5 (cf.drop i)).filterMap decodeGrupo := by
    intro n
    induction n with
    | zero =>
      intro i hi
      rw [parseCandidaturasAux, dif_neg (by omega)]
      rw [List.drop_eq_nil_of_le (by omega)]
      rfl
    | succ n ih =>
      intro i hi
      by_cases h : i + 4 < cf.length
      · rw [parseCandidaturasAux, dif_pos h, drop_five_decomp cf i h]
        rw [chunks5]
        rw [List.filterMap_cons]
        cases hg : decodeGrupo ⟨cf.get ⟨i, by omega⟩, cf.get ⟨i + 1, by omega⟩,
            cf.get ⟨i + 2, by omega⟩, cf.get ⟨i + 3, by omega⟩, cf.get ⟨i + 4, by omega⟩⟩ with
        | none => exact ih (i + 5) (by omega)
        | some c => exact congrArg (fun l => c :: l) (ih (i + 5) (by omega))
      · rw [parseCandidaturasAux, dif_neg h]
        rw [chunks5_eq_nil _ (by simp [List.length_drop]; omega)]
        rfl
  exact key cf.length i (by omega)

theorem forall2_map_self {α β : Type} (R : α → β → Prop) (f : α → β) (l : List α)
    (h : ∀ a ∈ l, R a (f a)) : List.Forall₂ R l (l.map f) := by
  induction l with
  | nil => exact List.Forall₂.nil
  | cons a t ih =>
      exact List.Forall₂.cons (h a (by simp)) (ih (fun x hx => h x (by simp [hx])))

theorem pctEscrutado_raw_eq (lineaCM : String) :
    getPctEscrutadoFromLineaCM lineaCM =
      (if jsTrim (((jsSplit ';' lineaCM).get? 9).getD "") = "" then none
       else match jsNumber (jsTrim (((jsSplit ';' lineaCM).get? 9).getD "")) with
            | .nan => none
            | .num q => some (q / 100)) := by
  simp only [getPctEscrutadoFromLineaCM]
  cases h : (jsSplit ';' lineaCM).get? 9 with
  | none => decide
  | some f =>
      by_cases hf : f = ""
      · subst hf
        decide
      · simp [hf]

/-- C4: the candidacy decoder skips the 22 header fields, consumes the
rest in consecutive 5-field groups, ignores a trailing partial group, and
emits exactly one candidacy per retained group in order of appearance; a
group is retained exactly when its trimmed code is non-empty and not the
`0000` sentinel and its trimmed short name is non-empty. -/
theorem candidacy_decoder_grouping (lineaCM : String) :
    parseCandidaturasFromLineaCM lineaCM
      = (chunks5 ((jsSplit ';' lineaCM).drop NUM_HEADER_FIELDS)).filterMap decodeGrupo
    ∧ ∀ g : Grupo, (decodeGrupo g).isSome = true
        ↔ (jsTrim g.codigoRaw ≠ "" ∧ jsTrim g.codigoRaw ≠ "0000" ∧ jsTrim g.siglasRaw ≠ "") := by
  constructor
  · have h := parseAux_eq_chunks ((jsSplit ';' lineaCM).drop NUM_HEADER_FIELDS) 0
    simpa [parseCandidaturasFromLineaCM] using h
  · intro g
    simp only [decodeGrupo]
    split
    · rename_i h1
      simp only [Bool.or_eq_true, decide_eq_true_eq] at h1
      simp only [Option.isSome_none, Bool.false_eq_true, false_iff]
      tauto
    · rename_i h1
      simp only [Bool.or_eq_true, decide_eq_true_eq] at h1
      push_neg at h1
      split
      · rename_i h2
        simp only [Option.isSome_none, Bool.false_eq_true, false_iff]
        tauto
      · rename_i h2
        simp only [Option.isSome_some, true_iff]
        exact ⟨h1.1, h1.2, h2⟩

/-- C1 (spec-modelled): province records are exactly the lines whose
field index 1 is `PR`, in feed order; each record's identifier is derived
from the field-5 display name by diacritic stripping, lower-casing and
whitespace-to-underscore (so `Cáceres` yields `caceres`); and one
province upsert row is produced per (province record, candidacy) pair. -/
theorem province_path_spec (csv : String) (now : String) :
    ((getLineasPR csv).Sublist (totalesLines csv)
      ∧ (∀ l ∈ getLineasPR csv, esLineaPR l = true)
      ∧ (∀ l ∈ totalesLines csv, esLineaPR l = true → l ∈ getLineasPR csv))
    ∧ (∀ line : String, (parseProvinciaRecord line).provincia_id
        = normalizeProvinciaId (((jsSplit ';' line).get? 5).getD "")
      ∧ (parseProvinciaRecord line).candidaturas = parseCandidaturasFromLineaCM line)
    ∧ normalizeProvinciaId "Cáceres" = "caceres"
    ∧ normalizeProvinciaId "Badajoz" = "badajoz"
    ∧ ∀ recs : List ProvinciaRecord,
        (provinciaUpsertRows recs now).length
            = (recs.map (fun r => r.candidaturas.length)).sum
        ∧ ∀ r ∈ recs, ∀ c ∈ r.candidaturas,
            (ProvinciaRow.mk r.provincia_id r.provincia_nombre c.party_id c.party_name
                c.seats_2025 c.vote_pct_2025 c.votos_totales now)
              ∈ provinciaUpsertRows recs now := by
  refine ⟨⟨List.filter_sublist _, ?_, ?_⟩, ?_, by decide, by decide, ?_⟩
  · intro l hl
    exact (List.mem_filter.mp hl).2
  · intro l hl hp
    exact List.mem_filter.mpr ⟨hl, hp⟩
  · intro line
    exact ⟨rfl, rfl⟩
  · intro recs
    constructor
    · simp only [provinciaUpsertRows, List.flatMap, List.length_flatten, List.map_map]
      apply congrArg
      apply List.map_congr_left
      intro r hr
      simp [Function.comp]
    · intro r hr c hc
      simp only [provinciaUpsertRows, List.mem_flatMap]
      exact ⟨r, hr, List.mem_map.mpr ⟨c, hc, rfl⟩⟩

/-- Witness for C1 at a concrete totals body with accented and plain
province names. -/
theorem province_path_spec_witness :
    normalizeProvinciaId "Cáceres" = "caceres"
    ∧ "b;PR;c;d;e;Cáceres" ∈ getLineasPR "a;CM;x\nb;PR;c;d;e;Cáceres\nf;PR;c;d;e;Badajoz" := by
  have h := province_path_spec "a;CM;x\nb;PR;c;d;e;Cáceres\nf;PR;c;d;e;Badajoz" "t"
  exact ⟨h.2.2.1, h.1.2.2 "b;PR;c;d;e;Cáceres" (by decide) (by decide)⟩

/-- C8: the region record is the first line (in a single scan) whose
field index 1 equals `CM`; the locator fails exactly when no line
matches. -/
theorem cm_record_locator (csv : String) :
    (∀ l, getTotalesLineaCM csv = some l →
        esLineaCM l = true ∧ ∃ pre post, totalesLines csv = pre ++ l :: post ∧
          ∀ x ∈ pre, esLineaCM x = false)
    ∧ (getTotalesLineaCM csv = none ↔ ∀ l ∈ totalesLines csv, esLineaCM l = false) := by
  constructor
  · intro l hl
    obtain ⟨hp, as, bs, heq, hpre⟩ := List.find?_eq_some.mp hl
    refine ⟨hp, as, bs, heq, fun x hx => ?_⟩
    have hx2 := hpre x hx
    simpa using hx2
  · constructor
    · intro h l hl
      have h2 := List.find?_eq_none.mp h l hl
      simpa using h2
    · intro h
      exact List.find?_eq_none.mpr (fun x hx => by simp [h x hx])

/-- Witness for C8: in a body with two `CM` lines the first one wins. -/
theorem cm_record_locator_witness : esLineaCM "b;CM;1" = true :=
  ((cm_record_locator "a;PR;x\nb;CM;1\nc;CM;2").1 "b;CM;1" (by decide)).1

/-- C5: the snapshot-id is the trimmed sole field of the first line when
the `;`-split has exactly one field, and the trimmed second field
otherwise; the resolver fails exactly when the resulting value is empty. -/
theorem num_env_resolver (csv line : String) (parts : List String)
    (hline : line = (jsSplit '\n' (jsTrim csv)).headD "")
    (hparts : parts = jsSplit ';' line) :
    (parts.length = 1 → getCurrentNumEnv csv =
        (if jsTrim (parts.headD "") = "" then none else some (jsTrim (parts.headD ""))))
    ∧ (parts.length ≠ 1 → getCurrentNumEnv csv =
        (if jsTrim ((parts.get? 1).getD "") = "" then none
         else some (jsTrim ((parts.get? 1).getD ""))))
    ∧ (getCurrentNumEnv csv = none ↔
        (if parts.length = 1 then jsTrim (parts.headD "")
         else jsTrim ((parts.get? 1).getD "")) = "") := by
  subst hparts
  subst hline
  simp only [getCurrentNumEnv]
  refine ⟨fun h1 => ?_, fun h1 => ?_, ?_⟩
  · rw [if_pos h1]
  · rw [if_neg h1]
  · split_ifs with h2 h3 h4 <;> simp_all

/-- Witness for C5: a multi-field first line yields the trimmed second
field. -/
theorem num_env_resolver_witness : getCurrentNumEnv "20251221;51" = some "51" := by
  have h := (num_env_resolver "20251221;51" "20251221;51" ["20251221", "51"]
      (by decide) (by decide)).2.1 (by decide)
  rw [h]
  decide

/-- C7: for a decoded candidacy, an empty raw percentage decodes to null,
and a non-empty numeric raw percentage decodes to its value divided by
100 (implied two decimals). -/
theorem vote_pct_decode (g : Grupo) (c : Candidatura) (q : ℚ)
    (hc : decodeGrupo g = some c) :
    (g.pctRaw = "" → c.vote_pct_2025 = none)
    ∧ (g.pctRaw ≠ "" → jsNumber g.pctRaw = .num q →
        c.vote_pct_2025 = some (.num (q / 100))) := by
  simp only [decodeGrupo] at hc
  split at hc
  · exact absurd hc (by simp)
  · split at hc
    · exact absurd hc (by simp)
    · cases hc
      constructor
      · intro he
        simp [he]
      · intro hne hq
        simp [hne, hq, JSNum.div100]

/-- Witness for C7: raw `3781` gives `37.81`, raw empty gives null, raw
`0` gives `0`. -/
theorem vote_pct_decode_witness :
    (Candidatura.mk "pp" "PP" (.num 0) (some (jsNumber "3781").div100) (.num 0) "0001").vote_pct_2025
        = some (.num (3781 / 100))
    ∧ (Candidatura.mk "pp" "PP" (.num 0) none (.num 0) "0001").vote_pct_2025 = none
    ∧ (Candidatura.mk "pp" "PP" (.num 0) (some (jsNumber "0").div100) (.num 0) "0001").vote_pct_2025
        = some (.num 0) := by
  refine ⟨?_, ?_, ?_⟩
  · exact (vote_pct_decode ⟨"0001", "PP", "", "3781", ""⟩ _ 3781 rfl).2 (by decide) (by decide)
  · exact (vote_pct_decode ⟨"0001", "PP", "", "", ""⟩ _ 0 rfl).1 rfl
  · have h := (vote_pct_decode ⟨"0001", "PP", "", "0", ""⟩ _ 0 rfl).2 (by decide) (by decide)
    simpa using h

/-- C10: a non-empty, non-numeric raw candidacy percentage decodes to
NaN (never to null); the blank-or-non-numeric-to-null fallback exists
only for the percentage-of-roll-counted field at index 9. -/
theorem vote_pct_nan_not_null (g : Grupo) (c : Candidatura)
    (hc : decodeGrupo g = some c) (hne : g.pctRaw ≠ "") (hnan : jsNumber g.pctRaw = .nan) :
    c.vote_pct_2025 = some .nan
    ∧ ∀ lineaCM : String,
        jsNumber (jsTrim (((jsSplit ';' lineaCM).get? 9).getD "")) = .nan →
          getPctEscrutadoFromLineaCM lineaCM = none := by
  constructor
  · simp only [decodeGrupo] at hc
    split at hc
    · exact absurd hc (by simp)
    · split at hc
      · exact absurd hc (by simp)
      · cases hc
        simp [hne, hnan, JSNum.div100]
  · intro lineaCM h9
    rw [pctEscrutado_raw_eq]
    by_cases hr : jsTrim (((jsSplit ';' lineaCM).get? 9).getD "") = ""
    · rw [if_pos hr]
    · rw [if_neg hr, h9]

/-- Witness for C10: the unparseable raw percentage `abc` yields NaN for
a candidacy but null for the percentage counted. -/
theorem vote_pct_nan_not_null_witness :
    (Candidatura.mk "pp" "PP" (.num 0) (some (jsNumber "abc").div100) (.num 0) "0001").vote_pct_2025
        = some JSNum.nan
    ∧ getPctEscrutadoFromLineaCM "x;CM;a;a;a;a;a;a;a;abc;a" = none := by
  have h := vote_pct_nan_not_null ⟨"0001", "PP", "", "abc", ""⟩
      (Candidatura.mk "pp" "PP" (.num 0) (some (jsNumber "abc").div100) (.num 0) "0001")
      rfl (by decide) (by decide)
  exact ⟨h.1, h.2 "x;CM;a;a;a;a;a;a;a;abc;a" (by decide)⟩

/-- C9: the percentage of roll counted comes from field index 9, is the
field value divided by 100 when numeric, is null exactly when the
(trimmed) field is blank or non-numeric, and this case is never a fatal
pipeline error (only a missing `CM` record is). -/
theorem pct_escrutado_nonfatal (lineaCM csv : String) (existentes : List PersistedRow)
    (now : String) :
    (getPctEscrutadoFromLineaCM lineaCM = none ↔
      (jsTrim (((jsSplit ';' lineaCM).get? 9).getD "") = ""
        ∨ jsNumber (jsTrim (((jsSplit ';' lineaCM).get? 9).getD "")) = .nan))
    ∧ (∀ q : ℚ, jsNumber (jsTrim (((jsSplit ';' lineaCM).get? 9).getD "")) = .num q →
        jsTrim (((jsSplit ';' lineaCM).get? 9).getD "") ≠ "" →
        getPctEscrutadoFromLineaCM lineaCM = some (q / 100))
    ∧ ((∃ e, processTotales csv existentes now = .error e) ↔ getTotalesLineaCM csv = none) := by
  refine ⟨?_, ?_, ?_⟩
  · rw [pctEscrutado_raw_eq]
    by_cases hr : jsTrim (((jsSplit ';' lineaCM).get? 9).getD "") = ""
    · rw [if_pos hr]
      exact iff_of_true rfl (Or.inl hr)
    · rw [if_neg hr]
      cases hn : jsNumber (jsTrim (((jsSplit ';' lineaCM).get? 9).getD "")) with
      | nan => simp [hr, hn]
      | num q =>
          simp only []
          refine iff_of_false (by simp) ?_
          rintro (ha | hb)
          · exact hr (by simpa using ha)
          · exact absurd hb (by simp)
  · intro q hq hr
    rw [pctEscrutado_raw_eq, if_neg hr, hq]
  · cases hct : getTotalesLineaCM csv with
    | none =>
        refine iff_of_true ⟨PipelineError.recordNotFound, ?_⟩ rfl
        simp [processTotales, hct]
    | some lineaCM2 => simp [processTotales, hct]

/-- Witness for C9: field index 9 holding `5678` decodes to `56.78`. -/
theorem pct_escrutado_nonfatal_witness :
    getPctEscrutadoFromLineaCM "x;CM;a;a;a;a;a;a;a;5678;a" = some (5678 / 100) :=
  (pct_escrutado_nonfatal "x;CM;a;a;a;a;a;a;a;5678;a" "x" [] "t").2.1 5678
    (by decide) (by decide)

/-- C6: the decoded display name for the short name `PODEMOS-IU-AV` is
`Unidas por Extremadura`, while the identifier is always derived from the
original short name (lower-case, whitespace to `_`, strip outside
`[a-z0-9_]`), unaffected by the display-name override. -/
theorem override_isolation (g : Grupo) (c : Candidatura) (hc : decodeGrupo g = some c) :
    c.party_id = partyIdOf (jsTrim g.siglasRaw)
    ∧ (jsTrim g.siglasRaw = "PODEMOS-IU-AV" →
        c.party_name = "Unidas por Extremadura" ∧ c.party_id = partyIdOf "PODEMOS-IU-AV")
    ∧ partyIdOf "PODEMOS-IU-AV" = "podemosiuav" := by
  simp only [decodeGrupo] at hc
  split at hc
  · exact absurd hc (by simp)
  · split at hc
    · exact absurd hc (by simp)
    · cases hc
      refine ⟨rfl, fun h => ⟨?_, ?_⟩, by decide⟩
      · simp [displayNameFor, h]
      · rw [h]

/-- Witness for C6: decoding the `PODEMOS-IU-AV` group yields the
overridden display name together with the identifier `podemosiuav`. -/
theorem override_isolation_witness :
    (Candidatura.mk "podemosiuav" "Unidas por Extremadura" (.num 0) none (.num 0) "0001").party_name
        = "Unidas por Extremadura"
    ∧ (Candidatura.mk "podemosiuav" "Unidas por Extremadura" (.num 0) none (.num 0) "0001").party_id
        = partyIdOf "PODEMOS-IU-AV" := by
  have h := override_isolation ⟨"0001", "PODEMOS-IU-AV", "", "", ""⟩
      (Candidatura.mk "podemosiuav" "Unidas por Extremadura" (.num 0) none (.num 0) "0001")
      (by decide)
  exact h.2.1 (by decide)

/-- C3: prior-period seats in an upsert row are the persisted value when
the identifier already exists (unchanged by any current values), and 0
for identifiers never seen before. -/
theorem prior_seats_carry (existentes : List PersistedRow) (c : Candidatura)
    (now : String) (pct : Option ℚ) :
    (∀ s : ℤ, jsMapGet (mapaExistentesOf existentes) c.party_id = some s →
        (buildUpsertRow (mapaExistentesOf existentes) now pct c).seats_2023 = s)
    ∧ (jsMapGet (mapaExistentesOf existentes) c.party_id = none →
        (buildUpsertRow (mapaExistentesOf existentes) now pct c).seats_2023 = 0)
    ∧ (∀ r ∈ existentes, (∀ u ∈ existentes, u.party_id = r.party_id → u = r) →
        r.party_id = c.party_id →
        (buildUpsertRow (mapaExistentesOf existentes) now pct c).seats_2023 = r.seats_2023)
    ∧ (∀ d : Candidatura, d.party_id = c.party_id →
        (buildUpsertRow (mapaExistentesOf existentes) now pct d).seats_2023
          = (buildUpsertRow (mapaExistentesOf existentes) now pct c).seats_2023)
    ∧ (jsMapGet (mapaExistentesOf existentes) c.party_id = none ↔
        ∀ r ∈ existentes, r.party_id ≠ c.party_id) := by
  refine ⟨?_, ?_, ?_, ?_, ?_⟩
  · intro s hs
    simp [buildUpsertRow, hs]
  · intro hs
    simp [buildUpsertRow, hs]
  · intro r hr huniq hpid
    have hmem : (r.party_id, r.seats_2023) ∈ (mapaExistentesOf existentes).reverse := by
      rw [List.mem_reverse]
      exact List.mem_map.mpr ⟨r, hr, rfl⟩
    have hsome : ((mapaExistentesOf existentes).reverse.find?
        (fun e => e.1 == c.party_id)).isSome := by
      rw [List.find?_isSome]
      exact ⟨(r.party_id, r.seats_2023), hmem, by simp [hpid]⟩
    obtain ⟨e, he⟩ := Option.isSome_iff_exists.mp hsome
    have hpe : e.1 = c.party_id := by
      have h2 := List.find?_some he
      simpa using h2
    have hmem2 : e ∈ (mapaExistentesOf existentes).reverse := List.mem_of_find?_eq_some he
    rw [List.mem_reverse] at hmem2
    obtain ⟨u, hu, hue⟩ := List.mem_map.mp hmem2
    have hupid : u.party_id = r.party_id := by
      rw [← hue] at hpe
      simpa [hpid] using hpe
    have hur : u = r := huniq u hu hupid
    have he2 : e.2 = r.seats_2023 := by
      rw [← hue, hur]
    simp [buildUpsertRow, jsMapGet, he, he2]
  · intro d hd
    simp [buildUpsertRow, hd]
  · simp only [jsMapGet, Option.map_eq_none', List.find?_eq_none]
    constructor
    · intro h r hr
      have h2 := h (r.party_id, r.seats_2023)
          (by rw [List.mem_reverse]; exact List.mem_map.mpr ⟨r, hr, rfl⟩)
      simpa using h2
    · intro h e he
      rw [List.mem_reverse] at he
      obtain ⟨u, hu, hue⟩ := List.mem_map.mp he
      have h3 := h u hu
      simp [← hue]
      exact h3

/-- Witness for C3: a persisted row `x` with 12 prior seats keeps them;
an unseen identifier `y` starts at 0. -/
theorem prior_seats_carry_witness :
    (buildUpsertRow (mapaExistentesOf [⟨"x", 12⟩]) "t" none
        ⟨"x", "X", .num 1, none, .num 0, "0001"⟩).seats_2023 = 12
    ∧ (buildUpsertRow (mapaExistentesOf [⟨"x", 12⟩]) "t" none
        ⟨"y", "Y", .num 1, none, .num 0, "0002"⟩).seats_2023 = 0 :=
  ⟨(prior_seats_carry [⟨"x", 12⟩] ⟨"x", "X", .num 1, none, .num 0, "0001"⟩ "t" none).1 12
      (by decide),
   (prior_seats_carry [⟨"x", 12⟩] ⟨"y", "Y", .num 1, none, .num 0, "0002"⟩ "t" none).2.1
      (by decide)⟩

/-- Counterexample for C2: two fresh decodes that differ only in total
votes produce identical region upsert rows, so the upsert row does not
carry total votes from the fresh decode as claimed. -/
theorem region_row_counterexample :
    buildUpsertRow (mapaExistentesOf []) "2025-12-21T20:00:00.000Z" none
        ⟨"pp", "PP", JSNum.num 28, none, JSNum.num 100, "0001"⟩
      = buildUpsertRow (mapaExistentesOf []) "2025-12-21T20:00:00.000Z" none
        ⟨"pp", "PP", JSNum.num 28, none, JSNum.num 999, "0001"⟩
    ∧ (JSNum.num 100 : JSNum) ≠ JSNum.num 999 :=
  ⟨rfl, by decide⟩

/-- C2 (amended): each region upsert row takes current seats, vote
percentage and percentage counted from the fresh decode plus the run
timestamp — but not total votes, which the region row does not store —
replacing every mutable non-key column, with prior-period seats the only
value carried forward from the persisted state. -/
theorem region_row_full_replace (lineaCM : String) (existentes : List PersistedRow)
    (now : String) :
    List.Forall₂ (fun c row =>
        row.party_id = c.party_id ∧ row.party_name = c.party_name ∧
        row.seats_2025 = c.seats_2025 ∧ row.vote_pct_2025 = c.vote_pct_2025 ∧
        row.pct_escrutado = getPctEscrutadoFromLineaCM lineaCM ∧
        row.updated_at = now ∧
        row.seats_2023 = (jsMapGet (mapaExistentesOf existentes) c.party_id).getD 0)
      (parseCandidaturasFromLineaCM lineaCM)
      (upsertRowsFor (parseCandidaturasFromLineaCM lineaCM) existentes now
        (getPctEscrutadoFromLineaCM lineaCM))
    ∧ (∀ r1 r2 : RegionRow, r1.party_id = r2.party_id → r1.party_name = r2.party_name →
        r1.seats_2025 = r2.seats_2025 → r1.vote_pct_2025 = r2.vote_pct_2025 →
        r1.seats_2023 = r2.seats_2023 → r1.updated_at = r2.updated_at →
        r1.pct_escrutado = r2.pct_escrutado → r1 = r2) := by
  constructor
  · exact forall2_map_self _ _ _ (fun c hc => ⟨rfl, rfl, rfl, rfl, rfl, rfl, rfl⟩)
  · intro r1 r2 h1 h2 h3 h4 h5 h6 h7
    cases r1
    cases r2
    simp_all

/-- Witness for C2 (amended): the extensionality component at a concrete
row. -/
theorem region_row_full_replace_witness :
    RegionRow.mk "pp" "PP" (JSNum.num 28) none 0 "t" none
      = RegionRow.mk "pp" "PP" (JSNum.num 28) none 0 "t" none :=
  (region_row_full_replace "x" [] "t").2 _ _ rfl rfl rfl rfl rfl rfl rfl
